import Mathlib

/-!
Verification of the echo protocol layer (src/src/main.rs).

The repository is a message-exchange layer over a multiplexed transport:
an application enum `Message {Echo, Ping, Pong}` is serialized with
bincode (standard configuration: little-endian, variable-length integer
encoding), each encoded message travels as the entire payload of one
bidirectional transport stream, the receiver reads the stream to its end
under a 10 MiB ceiling, and the responder runs an acceptor loop that
spawns one independent task per accepted stream.

The embedding below models bytes as natural numbers (< 256 on every
stream the program produces), streams as the byte list written before
finish, and the asynchronous acceptor loop as a function over a finite
trace of accept results.
-/

/-- Message enum of the source: `enum Message { Echo, Ping, Pong }`. -/
inductive Message
  | Echo
  | Ping
  | Pong
  deriving DecidableEq, Repr

/-- Variant index used by the derived bincode Encode/Decode instances:
the derive serializes an enum as its zero-based variant index (a u32),
followed by the fields (none here). -/
def variantIndex : Message → Nat
  | .Echo => 0
  | .Ping => 1
  | .Pong => 2

/-- MAX_MESSAGE_SIZE of the source: `10 * 1024 * 1024` bytes. -/
def MAX_MESSAGE_SIZE : Nat := 10 * 1024 * 1024

/-- Little-endian byte serialization of a value into a fixed number of
bytes, as bincode writes fixed-width integers under the standard
(little-endian) configuration. -/
def toLE : Nat → Nat → List Nat
  | 0, _ => []
  | n + 1, v => v % 256 :: toLE n (v / 256)

/-- Little-endian read of a fixed number of bytes; none when the input
ends early. -/
def readLE : Nat → List Nat → Option Nat
  | 0, _ => some 0
  | _ + 1, [] => none
  | n + 1, b :: rest => (readLE n rest).map fun hi => b + 256 * hi

/-- Variable-length encoding of a u32 under bincode's standard
configuration: values up to 250 are a single byte; marker byte 251
introduces a little-endian u16, marker byte 252 a little-endian u32. -/
def varintEncodeU32 (v : Nat) : List Nat :=
  if v ≤ 250 then [v]
  else if v < 2 ^ 16 then 251 :: toLE 2 v
  else 252 :: toLE 4 (v % 2 ^ 32)

/-- Decode failures of the bincode decoder as they can arise for this
message type: input ended before the value was complete, a variant index
that names no variant, or an integer wider than the expected type. -/
inductive DecodeError
  | unexpectedEnd
  | unexpectedVariant (v : Nat)
  | invalidIntegerType
  deriving DecidableEq, Repr

/-- Variable-length decoding of a u32 under bincode's standard
configuration, returning the value and the number of bytes consumed.
Marker bytes 253 and 254 introduce little-endian u64 and u128 values,
which must still fit in a u32; byte 255 is not a valid integer marker. -/
def varintDecodeU32 (bytes : List Nat) : Except DecodeError (Nat × Nat) :=
  match bytes with
  | [] => .error .unexpectedEnd
  | b :: rest =>
    if b ≤ 250 then .ok (b, 1)
    else if b = 251 then
      match readLE 2 rest with
      | some v => .ok (v, 3)
      | none => .error .unexpectedEnd
    else if b = 252 then
      match readLE 4 rest with
      | some v => .ok (v, 5)
      | none => .error .unexpectedEnd
    else if b = 253 then
      match readLE 8 rest with
      | some v => if v < 2 ^ 32 then .ok (v, 9) else .error .invalidIntegerType
      | none => .error .unexpectedEnd
    else if b = 254 then
      match readLE 16 rest with
      | some v => if v < 2 ^ 32 then .ok (v, 17) else .error .invalidIntegerType
      | none => .error .unexpectedEnd
    else .error .invalidIntegerType

/-- Byte sequence produced by `bincode::encode_to_vec(msg, standard())`
for a Message: the variant index as a variable-length u32 (no fields
follow). -/
def encodeMessage (m : Message) : List Nat :=
  varintEncodeU32 (variantIndex m)

/-- Embedding of `bincode::decode_from_slice(&bytes, standard())` at type
Message: decode the variant index, map it to a variant, and return the
value together with the number of bytes read. As in bincode, bytes after
one complete value are neither consumed nor reported as an error. -/
def decode_from_slice (bytes : List Nat) : Except DecodeError (Message × Nat) :=
  match varintDecodeU32 bytes with
  | .error e => .error e
  | .ok (v, n) =>
    match v with
    | 0 => .ok (.Echo, n)
    | 1 => .ok (.Ping, n)
    | 2 => .ok (.Pong, n)
    | v => .error (.unexpectedVariant v)

/-- Transport-level failures visible to this layer: the stream exceeded
the read bound, or the connection terminated. -/
inductive TransportError
  | oversizedMessage
  | connectionClosed
  deriving DecidableEq, Repr

/-- Embedding of `RecvStream::read_to_end(limit)`: the stream delivers
the bytes its peer wrote before finishing; the call fails when they
exceed the limit and otherwise returns them all. -/
def read_to_end (streamBytes : List Nat) (limit : Nat) : Except TransportError (List Nat) :=
  if streamBytes.length > limit then .error .oversizedMessage else .ok streamBytes

/-- Failures of `recv_message`: a transport failure of the read, or a
decode failure of the payload. -/
inductive RecvError
  | transport (e : TransportError)
  | decode (e : DecodeError)
  deriving DecidableEq, Repr

/-- Embedding of `recv_message`: read the stream to its end bounded by
MAX_MESSAGE_SIZE, then decode one Message from the bytes, discarding the
consumed-byte count that `decode_from_slice` reports. -/
def recv_message (streamBytes : List Nat) : Except RecvError Message :=
  match read_to_end streamBytes MAX_MESSAGE_SIZE with
  | .error e => .error (.transport e)
  | .ok bytes =>
    match decode_from_slice bytes with
    | .error e => .error (.decode e)
    | .ok (msg, _) => .ok msg

/-- Error class of `send_message`: a transport failure from open_bi,
write_all, or finish, or the (unreachable) encode failure mapped into an
io error by the source. -/
inductive SendError
  | transport
  | encode
  deriving DecidableEq, Repr

/-- Outcomes the transport hands to one run of `send_message`: whether
`open_bi`, `write_all`, and `finish` each succeed when reached. -/
structure SendEnv where
  openOk : Bool
  writeOk : Bool
  finishOk : Bool
  deriving DecidableEq, Repr

/-- Encode errors of bincode. The trait signature makes encoding
fallible, but the derived encoder for a fieldless enum only writes one
variable-length u32 into an infallible vector writer, so no run of the
program constructs this value. -/
inductive EncodeError
  | other
  deriving DecidableEq, Repr

/-- Embedding of `bincode::encode_to_vec(msg, standard())`: the fallible
signature of the source, which for this Message type always returns the
encoded bytes. -/
def encode_to_vec (m : Message) : Except EncodeError (List Nat) :=
  .ok (encodeMessage m)

/-- Result of one run of `send_message`: the returned value together
with how many times `send.finish()` was invoked before returning. -/
structure SendOutcome where
  result : Except SendError Unit
  finishCalls : Nat
  deriving Repr

/-- Embedding of `send_message`: open a new bidirectional stream
(receive half dropped unused), encode the message, write all bytes, then
finish the send half; each fallible step returns early on failure via
the question-mark operator. `finishCalls` counts invocations of finish,
whether or not the invocation itself succeeds. -/
def send_message (env : SendEnv) (msg : Message) : SendOutcome :=
  if env.openOk then
    match encode_to_vec msg with
    | .error _ => ⟨.error .encode, 0⟩
    | .ok _encoded =>
      if env.writeOk then
        if env.finishOk then ⟨.ok (), 1⟩ else ⟨.error .transport, 1⟩
      else ⟨.error .transport, 0⟩
  else ⟨.error .transport, 0⟩

/-- One inbound event observed by the acceptor loop: either `accept_bi`
yields a stream (its payload, and the transport outcomes the spawned
task will see when it sends the reply), or `accept_bi` returns the
connection-closed signal. -/
inductive AcceptEvent
  | accepted (payload : List Nat) (env : SendEnv)
  | closed
  deriving DecidableEq, Repr

/-- Outcome of one spawned per-stream task of the acceptor loop: the
message was decoded and the echo reply sent, the reply send failed and
was logged, or receiving/decoding failed and was logged. -/
inductive HandlerOutcome
  | replied (m : Message)
  | sendFailed (m : Message) (e : SendError)
  | recvFailed (e : RecvError)
  deriving DecidableEq, Repr

/-- Body of the task `Echo::accept` spawns per accepted stream: receive
one message from the stream and, on success, echo it back with
`send_message` on a new stream; every failure is only logged. -/
def handleTask (payload : List Nat) (env : SendEnv) : HandlerOutcome :=
  match recv_message payload with
  | .ok m =>
    match (send_message env m).result with
    | .ok _ => .replied m
    | .error e => .sendFailed m e
  | .error e => .recvFailed e

/-- Outcome of the task an accept event gives rise to; the closed signal
spawns no task. -/
def taskOf : AcceptEvent → Option HandlerOutcome
  | .accepted p env => some (handleTask p env)
  | .closed => none

/-- Whether an accept event is the connection-closed signal. -/
def isClosed : AcceptEvent → Bool
  | .closed => true
  | .accepted _ _ => false

/-- Embedding of the accept loop of `Echo::accept`, run over a finite
trace of accept results: each accepted stream spawns an independent task
(its outcome recorded in order), and the loop breaks exactly when accept
reports the connection closed. `none` means the trace ended with the
loop still awaiting the next accept, i.e. the loop has not exited. -/
def Echo.accept : List AcceptEvent → Option (List HandlerOutcome)
  | [] => none
  | .closed :: _ => some []
  | .accepted p env :: rest =>
    (Echo.accept rest).map fun rs => handleTask p env :: rs

/-- Bytes written on one stream, identified by the stream id. -/
structure StreamWrite where
  id : Nat
  bytes : List Nat
  deriving DecidableEq, Repr

/-- Stream id of the k-th client-opened bidirectional stream. The
transport keeps the two sides' stream id spaces disjoint; client-opened
streams are modelled as the even ids. -/
def clientStreamId (k : Nat) : Nat := 2 * k

/-- Stream id of the k-th server-opened bidirectional stream, modelled
as the odd ids; see `clientStreamId`. -/
def serverStreamId (k : Nat) : Nat := 2 * k + 1

/-- Writes the server performs while handling one accepted stream in
`Echo::accept`: the accepted stream's send half `_send` is dropped
unused, and on a successful receive the reply is written by
`send_message` on a newly opened server stream (id `serverStreamId
fresh`); on failure nothing is written. -/
def handleStreamWrites (fresh : Nat) (_reqId : Nat) (payload : List Nat) : List StreamWrite :=
  match recv_message payload with
  | .ok m => [⟨serverStreamId fresh, encodeMessage m⟩]
  | .error _ => []

/-- C2: for every Message m (Echo, Ping, or Pong), the deserialization
performed in recv_message inverts the serialization performed in
send_message: feeding a stream that carries exactly `encode_to_vec m`
through recv_message yields exactly m. -/
theorem recv_message_roundtrip (m : Message) :
    encode_to_vec m = .ok (encodeMessage m) ∧
    recv_message (encodeMessage m) = .ok m := by
  cases m <;> exact ⟨rfl, rfl⟩

/-- C4 counterexample: appending the non-empty garbage byte 255 after
`encode(Echo)` does not make the decode step fail; `decode_from_slice`
succeeds exactly as on `encode(Echo)` alone, and recv_message silently
returns Echo. -/
theorem trailing_garbage_silently_accepted :
    decode_from_slice (encodeMessage Message.Echo ++ [255]) = .ok (Message.Echo, 1) ∧
    recv_message (encodeMessage Message.Echo ++ [255]) = .ok Message.Echo :=
  ⟨rfl, rfl⟩

/-- C4 amended: for every Message m and every trailing byte sequence g,
the decode step used in recv_message succeeds on `encode(m) ++ g`,
returning m and reporting only `(encode m).length` bytes consumed; the
trailing bytes are left unconsumed, and recv_message discards the
consumed-byte count, so the garbage is ignored without any error. -/
theorem decode_ignores_trailing_garbage (m : Message) (g : List Nat) :
    decode_from_slice (encodeMessage m ++ g) = .ok (m, (encodeMessage m).length) := by
  cases m <;> rfl

/-- C10: decoding the empty byte sequence, as produced by a peer that
finishes a stream without writing, always fails in recv_message with the
end-of-input decode error and never yields a Message. -/
theorem recv_message_empty_fails :
    recv_message ([] : List Nat) = .error (.decode .unexpectedEnd) :=
  rfl

/-- C8: encoding is total: for every Message and every transport
environment, the encode step inside send_message succeeds with the
message's byte encoding, so send_message never returns the
EncodeError-class fault. -/
theorem encode_total_encode_error_unreachable (env : SendEnv) (m : Message) :
    encode_to_vec m = .ok (encodeMessage m) ∧
    (send_message env m).result ≠ .error .encode := by
  refine ⟨rfl, ?_⟩
  rcases env with ⟨o, w, f⟩
  cases o <;> cases w <;> cases f <;> simp [send_message, encode_to_vec]

/-- C5 counterexample: in the run where open_bi succeeds and write_all
fails, send_message returns the transport error without ever invoking
finish on the opened stream's send half, so the send half is not
finished exactly once on that exit path. -/
theorem send_message_write_failure_skips_finish :
    (send_message ⟨true, false, true⟩ Message.Echo).finishCalls = 0 ∧
    (send_message ⟨true, false, true⟩ Message.Echo).result = .error .transport :=
  ⟨rfl, rfl⟩

/-- C5 amended: send_message invokes finish exactly once on every exit
path reached after write_all succeeds (the success path, and the path
where finish itself fails), and zero times when open_bi or write_all
fails; in particular finish is never invoked more than once. -/
theorem send_message_finish_calls (env : SendEnv) (m : Message) :
    (send_message env m).finishCalls = cond (env.openOk && env.writeOk) 1 0 := by
  rcases env with ⟨o, w, f⟩
  cases o <;> cases w <;> cases f <;> rfl

/-- C6: recv_message bounds every single read by exactly 10 MiB: the
bound constant is 10 * 1024 * 1024 bytes, a stream whose sender wrote
MAX_MESSAGE_SIZE + 1 bytes before finishing makes recv_message fail with
the oversized-message transport error, and a stream of exactly
MAX_MESSAGE_SIZE bytes is read to its end successfully. -/
theorem recv_message_bounded_10MiB :
    MAX_MESSAGE_SIZE = 10 * 1024 * 1024 ∧
    (∀ bytes : List Nat, bytes.length = MAX_MESSAGE_SIZE + 1 →
        recv_message bytes = .error (.transport .oversizedMessage)) ∧
    (∀ bytes : List Nat, bytes.length = MAX_MESSAGE_SIZE →
        read_to_end bytes MAX_MESSAGE_SIZE = .ok bytes) := by
  refine ⟨rfl, ?_, ?_⟩
  · intro bytes h
    have hgt : bytes.length > MAX_MESSAGE_SIZE := by
      rw [h]; exact Nat.lt_succ_self _
    unfold recv_message read_to_end
    rw [if_pos hgt]
  · intro bytes h
    unfold read_to_end
    rw [if_neg (by rw [h]; exact Nat.lt_irrefl _)]

/-- Witness for C6: reading 10 MiB plus one bytes fails with the
oversized-message error, and reading exactly 10 MiB succeeds. -/
theorem recv_message_bounded_10MiB_witness :
    recv_message (List.replicate (MAX_MESSAGE_SIZE + 1) 0) =
      .error (.transport .oversizedMessage) ∧
    read_to_end (List.replicate MAX_MESSAGE_SIZE 0) MAX_MESSAGE_SIZE =
      .ok (List.replicate MAX_MESSAGE_SIZE 0) :=
  ⟨recv_message_bounded_10MiB.2.1 _ (by simp),
   recv_message_bounded_10MiB.2.2 _ (by simp)⟩

/-- C7: for every Message m, decoding any strict prefix of its encoding
(every encoding is a single byte, so the only strict prefix is the empty
sequence) fails with the end-of-input decode error and never yields a
different successfully decoded Message. -/
theorem strict_prefix_decode_fails (m : Message) (p : List Nat)
    (hpre : ∃ t, p ++ t = encodeMessage m) (hne : p ≠ encodeMessage m) :
    decode_from_slice p = .error DecodeError.unexpectedEnd := by
  obtain ⟨t, ht⟩ := hpre
  have hc : encodeMessage m = [variantIndex m] := by cases m <;> rfl
  cases p with
  | nil => rfl
  | cons a p2 =>
    exfalso
    rw [hc] at ht
    cases p2 with
    | nil =>
      apply hne
      rw [hc]
      have h2 : a = variantIndex m ∧ t = [] := by simpa using ht
      rw [h2.1]
    | cons b p3 =>
      have hlen := congrArg List.length ht
      simp at hlen

/-- Witness for C7: the empty sequence is a strict prefix of the
encoding of Echo, and decoding it fails with the end-of-input error. -/
theorem strict_prefix_decode_fails_witness :
    (∃ t, ([] : List Nat) ++ t = encodeMessage Message.Echo) ∧
    ([] : List Nat) ≠ encodeMessage Message.Echo ∧
    decode_from_slice ([] : List Nat) = .error DecodeError.unexpectedEnd :=
  ⟨⟨encodeMessage Message.Echo, rfl⟩, by decide,
   strict_prefix_decode_fails Message.Echo []
     ⟨encodeMessage Message.Echo, rfl⟩ (by decide)⟩

/-- C9: the server's per-stream task never writes on the accepted
stream (its send half is dropped unused): every write it performs lands
on a stream id different from the accepted client stream's id, and when
the receive succeeds with m the sole write is `encode m` on the freshly
opened server stream, which the client observes only by accepting a new
inbound stream. -/
theorem server_replies_on_fresh_stream (fresh k : Nat) (payload : List Nat) :
    (∀ w ∈ handleStreamWrites fresh (clientStreamId k) payload,
        w.id ≠ clientStreamId k) ∧
    (∀ m, recv_message payload = .ok m →
        handleStreamWrites fresh (clientStreamId k) payload =
          [⟨serverStreamId fresh, encodeMessage m⟩]) := by
  constructor
  · intro w hw
    unfold handleStreamWrites at hw
    cases hr : recv_message payload with
    | ok m =>
      rw [hr] at hw
      simp at hw
      subst hw
      show 2 * fresh + 1 ≠ 2 * k
      omega
    | error e =>
      rw [hr] at hw
      simp at hw
  · intro m hm
    unfold handleStreamWrites
    rw [hm]

/-- Witness for C9: handling a Ping request on client stream 0 writes
the reply on server stream 1, which differs from the request stream. -/
theorem server_replies_on_fresh_stream_witness :
    (⟨serverStreamId 0, encodeMessage Message.Ping⟩ : StreamWrite).id ≠ clientStreamId 0 ∧
    handleStreamWrites 0 (clientStreamId 0) (encodeMessage Message.Ping) =
      [⟨serverStreamId 0, encodeMessage Message.Ping⟩] :=
  ⟨(server_replies_on_fresh_stream 0 0 (encodeMessage Message.Ping)).1 _ (by decide),
   (server_replies_on_fresh_stream 0 0 (encodeMessage Message.Ping)).2 Message.Ping rfl⟩

/-- C3 counterexample: when the client sends Echo on its dedicated
duplex stream (client stream 0), the server's reply is written on the
newly opened server stream 1, not on the request stream 0, so the server
does not reply on that same unit. -/
theorem echo_reply_not_on_request_unit :
    handleStreamWrites 0 (clientStreamId 0) (encodeMessage Message.Echo) =
      [⟨serverStreamId 0, encodeMessage Message.Echo⟩] ∧
    serverStreamId 0 ≠ clientStreamId 0 :=
  ⟨rfl, by decide⟩

/-- C3 amended: the client sends Echo on a dedicated duplex unit; the
server replies with Echo on a fresh server-opened unit; the client,
accepting that new inbound unit, reads back exactly Echo. -/
theorem echo_end_to_end_fresh_unit :
    ∃ w : StreamWrite,
      handleStreamWrites 0 (clientStreamId 0) (encodeMessage Message.Echo) = [w] ∧
      w.id = serverStreamId 0 ∧
      recv_message w.bytes = .ok Message.Echo :=
  ⟨⟨serverStreamId 0, encodeMessage Message.Echo⟩, rfl, rfl, rfl⟩

/-- C1: the acceptor loop of Echo::accept, run over any finite trace of
inbound events, exits exactly when accept reports the connection closed
(otherwise it is still awaiting the next accept), and when it exits the
per-stream task outcomes are precisely `handleTask` applied to each
stream accepted before the closed signal — each outcome a function of
that stream's own payload and transport environment only, so a decode or
send failure in one task neither terminates the loop nor changes the
handling of any other accepted stream. -/
theorem accept_loop_exit_and_isolation (evs : List AcceptEvent) :
    Echo.accept evs =
      if AcceptEvent.closed ∈ evs
      then some ((evs.takeWhile fun e => !(isClosed e)).filterMap taskOf)
      else none := by
  induction evs with
  | nil => rfl
  | cons e rest ih =>
    cases e with
    | closed =>
      simp [Echo.accept, List.takeWhile, isClosed]
    | accepted p env =>
      by_cases h : AcceptEvent.closed ∈ rest
      · simp [Echo.accept, ih, h, List.takeWhile, isClosed, taskOf]
      · simp [Echo.accept, ih, h, List.takeWhile, isClosed, taskOf]
